/-
Verification of the MTFSS inbox-sorting engine (src/mtfss.py).

The Python source is shallowly embedded:
  * pure string helpers (`parse_email_address`, the recipient regex scan,
    the folder-name normalisation of `determine_folder`) become Lean
    functions on `String`/`List Char`; Python's `str` operations are
    modelled at ASCII fidelity (`str.capitalize`, `str.lower`,
    `str.strip`, regex character classes are ASCII ranges);
  * the IMAP connection becomes a response oracle `Behavior`: each
    connection method either returns a status payload or raises an
    `IMAP4.error`, modelled by `Except Err`;
  * every gateway call is traced as an `Action`, so that theorems can
    speak about which protocol operations a sweep performed;
  * `process_inbox` and `run_continuous` become functions of the oracle
    (plus, for the loop, a finite list of per-tick environment events),
    returning the action trace, the propagated-or-ok outcome, and the
    updated `first_pass` flag.
-/
import Mathlib

namespace MTFSS

/-! ### Character classes of the recipient regex

The source extracts recipients with
`re.findall(r'\b[A-Za-z0-9._%+-]+@[A-Za-z0-9.-]+\.[A-Z|a-z]{2,}\b', v)`.
Note that the top-level class `[A-Z|a-z]` literally contains `'|'`. -/

/-- Local-part class `[A-Za-z0-9._%+-]`. -/
def isLchar (c : Char) : Bool :=
  c.isAlphanum || c == '.' || c == '_' || c == '%' || c == '+' || c == '-'

/-- Domain class `[A-Za-z0-9.-]`. -/
def isDchar (c : Char) : Bool :=
  c.isAlphanum || c == '.' || c == '-'

/-- Top-level class `[A-Z|a-z]`: letters and the literal bar. -/
def isTchar (c : Char) : Bool :=
  c.isAlpha || c == '|'

/-- Python regex word character (`\w`), at ASCII fidelity: `[A-Za-z0-9_]`. -/
def wordChar (c : Char) : Bool :=
  c.isAlphanum || c == '_'

/-- Word-ness of an optional character; out-of-string counts as non-word. -/
def wordOpt : Option Char → Bool
  | some c => wordChar c
  | none => false

/-- Python `\b`: the characters on the two sides of the point differ in
word-ness. -/
def isBoundary (a b : Option Char) : Bool :=
  wordOpt a != wordOpt b

/-! ### The regex matcher

`\b L+ @ D+ \. T{2,} \b`, with Python's leftmost, greedy, backtracking
semantics specialised to this pattern:
  * `L+` has no real choice: since `'@' ∉ L`, the `L` run must be maximal
    and the following character must be `'@'`;
  * `D+ \.` backtracks over the position of the dot: the largest `k ≥ 1`
    with a `'.'` at index `k` inside the maximal `D` run is tried first;
  * `T{2,}` takes the maximal `T` run and backtracks its length `j`
    (longest first, `j ≥ 2`) until the trailing `\b` holds. -/

/-- Match `T{2,}\b` against `u`, greedily: the longest `j ≥ 2` within the
maximal `T`-run of `u` such that a word boundary holds after `j`
characters.  Returns the consumed characters and the rest. -/
def tMatch (u : List Char) : Option (List Char × List Char) :=
  match (List.range' 2 ((u.takeWhile isTchar).length - 1)).reverse.find?
      (fun j => isBoundary (u.get? (j - 1)) (u.get? j)) with
  | some j => some (u.take j, u.drop j)
  | none => none

/-- Match `D+ \. T{2,} \b` against `v` (the text after the `'@'`),
backtracking over the dot position, largest first. -/
def dMatch (v : List Char) : Option (List Char × List Char) :=
  (List.range' 1 (v.takeWhile isDchar).length).reverse.findSome? (fun k =>
    if v.get? k = some '.' then
      match tMatch (v.drop (k + 1)) with
      | some (ts, rest) => some (v.take (k + 1) ++ ts, rest)
      | none => none
    else none)

/-- Attempt the whole pattern at the start of `s`, where `prev` is the
character just before `s` (for the leading `\b`).  Returns the matched
characters and the rest of the input. -/
def addrMatch (prev : Option Char) (s : List Char) : Option (List Char × List Char) :=
  if isBoundary prev s.head? then
    if (s.takeWhile isLchar).isEmpty then none
    else
      match s.drop (s.takeWhile isLchar).length with
      | '@' :: v =>
        match dMatch v with
        | some (dm, rest) => some (s.takeWhile isLchar ++ '@' :: dm, rest)
        | none => none
      | _ => none
  else none

/-- The `re.findall` loop for the recipient pattern: scan left to right, take the
leftmost match, continue after it.  `fuel` bounds the number of scan
steps; each step consumes at least one character, so any `fuel` at least
the length of the remaining input is exact. -/
def findAddrsAux : Nat → Option Char → List Char → List String
  | 0, _, _ => []
  | _ + 1, _, [] => []
  | fuel + 1, prev, c :: cs =>
    match addrMatch prev (c :: cs) with
    | some (m, rest) => String.mk m :: findAddrsAux fuel (m.getLast?) rest
    | none => findAddrsAux fuel (some c) cs

/-- All regex matches of the recipient pattern inside a header value. -/
def findAddrs (s : String) : List String :=
  findAddrsAux s.data.length none s.data

/-! ### Messages and recipient extraction -/

/-- An email message, abstracted to the three addressing headers the
source reads (`msg.get('To')`, `'Cc'`, `'Bcc'`); `none` models an absent
header. -/
structure Message where
  toHeader : Option String
  ccHeader : Option String
  bccHeader : Option String
deriving DecidableEq

/-- Embeds `extract_recipients`: run the regex over the `To`, `Cc`, `Bcc`
header values, in that order, concatenating the matches.  An absent (or
empty, hence falsy) header contributes nothing. -/
def extract_recipients (msg : Message) : List String :=
  ([msg.toHeader, msg.ccHeader, msg.bccHeader].map (fun h =>
    match h with
    | some v => findAddrs v
    | none => [])).flatten

/-! ### `parse_email_address`

`re.match(r'^([^@]+)@(.+)$', email_addr.strip())`.  After `strip()` the
input has no leading or trailing whitespace (hence no trailing newline,
so `$` only matches at the very end).  `[^@]+` is forced to be exactly
the text before the first `'@'`; `(.+)` must then cover the whole
remainder, which is possible precisely when it is non-empty and contains
no newline (the dot does not match `'\n'`). -/

/-- Python `str.strip()` whitespace, at ASCII fidelity. -/
def isPySpace (c : Char) : Bool :=
  c == ' ' || c == '\t' || c == '\n' || c == '\r' || c == '\x0b' || c == '\x0c'

/-- Python `str.strip()`: drop leading and trailing whitespace. -/
def pyStrip (s : List Char) : List Char :=
  ((s.dropWhile isPySpace).reverse.dropWhile isPySpace).reverse

/-- Embeds `parse_email_address`: split the stripped input at the first `'@'`;
yield the pair when both sides are usable, else the empty pair. -/
def parse_email_address (s : String) : String × String :=
  match (pyStrip s.data).drop ((pyStrip s.data).takeWhile (fun c => c != '@')).length with
  | '@' :: d =>
    if !((pyStrip s.data).takeWhile (fun c => c != '@')).isEmpty && !d.isEmpty &&
        d.all (fun c => c != '\n') then
      (String.mk ((pyStrip s.data).takeWhile (fun c => c != '@')), String.mk d)
    else ("", "")
  | _ => ("", "")

/-! ### Folder-name normalisation -/

/-- The constant `ARCHIVE_FOLDER = "archived"`. -/
def ARCHIVE_FOLDER : String := "archived"

/-- Python `str.capitalize()`: first character uppercased, every other
character lowercased (ASCII fidelity). -/
def pyCapitalize (s : String) : String :=
  match s.data with
  | [] => ""
  | c :: cs => String.mk (c.toUpper :: cs.map Char.toLower)

/-- Embeds `domain.lower().replace('.', '_')`. -/
def domain_folder_of (domain : String) : String :=
  String.mk ((domain.data.map Char.toLower).map (fun c => if c == '.' then '_' else c))

/-! ### The connection oracle

Python methods on `self.connection` either return a `(status, data)`
tuple or raise `IMAP4.error`.  A `Behavior` fixes the response of each
method per argument; `Except Err` models raising. -/

/-- The message of an `IMAP4.error`. -/
abbrev Err := String

/-- The raw payload `msg_data[0][1]` of a fetch: either bytes (carried
here already parsed into the headers the code goes on to read) or a
non-bytes value, which the code treats as a malformed payload. -/
inductive Payload where
  | bytes : Message → Payload
  | notBytes : Payload
deriving DecidableEq

/-- Responses of the IMAP connection, one field per method the engine
calls.  `Except.error` models the method raising `IMAP4.error`. -/
structure Behavior where
  selectR : Except Err String
  listR : String → Except Err (String × List (Option String))
  createR : String → Except Err String
  searchR : String → Except Err (String × List String)
  fetchR : String → Except Err (String × Payload)
  copyR : String → String → Except Err String
  storeR : String → Except Err String
  expungeR : Except Err String

/-- One traced protocol operation. -/
inductive Action where
  | selectOp
  | listOp (name : String)
  | createOp (name : String)
  | searchOp (scope : String)
  | fetchOp (id : String)
  | copyOp (id : String) (folder : String)
  | storeOp (id : String)
  | expungeOp
deriving DecidableEq

/-! ### The gateway operations

Each embedded operation returns its action trace together with its
result; `Except.error` in the result models an exception propagating to
the caller.  The `if not self.connection: raise ValueError` guards hold
vacuously here because a `Behavior` stands for a live connection; the
one place the source returns instead of raising on a missing connection
(`create_folder`) takes an `Option Behavior`. -/

/-- Embeds `connect`: `IMAP4_SSL(...).login(...)` inside `try/except
IMAP4.error`; an IMAP-level failure is logged and reported as `False`,
success as `True`.  The argument is the outcome of the underlying
construction/login. -/
def connect (login : Except Err Unit) : Bool :=
  match login with
  | .ok _ => true
  | .error _ => false

/-- Embeds `folder_exists`: `status, folders = connection.list('""', name)`;
true iff the status is `OK`, the list is non-empty and its first entry
is not `None`.  An `IMAP4.error` is logged and re-raised. -/
def first_entry_some : List (Option String) → Bool
  | f :: _ => f.isSome
  | [] => false

def folder_exists (b : Behavior) (name : String) : List Action × Except Err Bool :=
  ([.listOp name],
   match b.listR name with
   | .error e => .error e
   | .ok (st, folders) => .ok (st == "OK" && first_entry_some folders))

/-- Embeds `create_folder`: returns `False` with no call when disconnected;
otherwise true iff the create status is `OK`; an `IMAP4.error` is
logged and re-raised. -/
def create_folder (conn : Option Behavior) (name : String) : List Action × Except Err Bool :=
  match conn with
  | none => ([], .ok false)
  | some b =>
    ([.createOp name],
     match b.createR name with
     | .error e => .error e
     | .ok st => .ok (st == "OK"))

/-- Sequencing of traced, raising computations: run `m`; on an
exception stop with the actions so far; on success run the
continuation, accumulating its actions.  This is exactly Python's
sequential statement execution with exception propagation. -/
def andThen (m : List Action × Except Err α) (k : α → List Action × Except Err β) :
    List Action × Except Err β :=
  match m with
  | (acts, .error e) => (acts, .error e)
  | (acts, .ok v) => (acts ++ (k v).1, (k v).2)

/-- Embeds `move_email`: ensure the target folder exists (the create result is
discarded), copy the message, and on an `OK` copy status set the
`\Deleted` flag and return `True`; a non-`OK` copy status returns
`False` with no flag store; an `IMAP4.error` anywhere is re-raised. -/
def move_email (b : Behavior) (id target : String) : List Action × Except Err Bool :=
  andThen (folder_exists b target) (fun ex =>
    andThen (if ex then ([], .ok true) else create_folder (some b) target) (fun _ =>
      andThen ([.copyOp id target], b.copyR id target) (fun st =>
        if st == "OK" then
          andThen ([.storeOp id], b.storeR id) (fun _ => ([], .ok true))
        else ([], .ok false))))

/-- Embeds `determine_folder`: empty user or domain routes to `unmatched`;
otherwise compute the normalised names, return the ignore folder
`archived.<userFolder>` when `folder_exists` reports it present (this
check can raise, which propagates), else route by exact comparison of
the domain against the configured primary domain. -/
def determine_folder (b : Behavior) (primary user domain : String) :
    List Action × Except Err String :=
  if user = "" ∨ domain = "" then ([], .ok "unmatched")
  else
    match folder_exists b (ARCHIVE_FOLDER ++ "." ++ pyCapitalize user) with
    | (a, .error e) => (a, .error e)
    | (a, .ok true) => (a, .ok (ARCHIVE_FOLDER ++ "." ++ pyCapitalize user))
    | (a, .ok false) =>
      (a, .ok (if domain = primary then "Inbox." ++ pyCapitalize user
        else "Inbox." ++ pyCapitalize user ++ "@" ++ domain_folder_of domain))

/-- The body of `process_inbox`'s per-message loop, which catches any
`IMAP4.error` and continues, so it never propagates an error: fetch the
message (a failed status, a malformed payload or a raising fetch skips
it); a message with no extracted recipients is moved to `unmatched`;
otherwise the first recipient is parsed, routed and the message moved.
Returns the actions performed for this message. -/
def process_message (b : Behavior) (primary id : String) : List Action :=
  (andThen ([.fetchOp id], b.fetchR id) (fun sp =>
    if sp.1 != "OK" then ([], .ok ())
    else
      match sp.2 with
      | .notBytes => ([], .ok ())
      | .bytes msg =>
        match extract_recipients msg with
        | [] => ((move_email b id "unmatched").1, .ok ())
        | r :: _ =>
          andThen (determine_folder b primary (parse_email_address r).1
              (parse_email_address r).2)
            (fun target => ((move_email b id target).1, .ok ())))).1

/-- One sweep (`process_inbox`), for a live connection `b`: select the
inbox (the select status is ignored; a raising select propagates),
ensure the archive root exists, search with `ALL` on the first pass and
`UNSEEN` otherwise — the `first_pass` flag is cleared as soon as the
search call returns, before its status is checked — abort with no
processing and no expunge on a non-`OK` search status, otherwise process
every returned message id and expunge once.  Returns the action trace,
the sweep outcome (`Except.error` = an exception escaping
`process_inbox`) and the updated `first_pass` flag. -/
def process_inbox (b : Behavior) (primary : String) (first_pass : Bool) :
    List Action × Except Err Unit × Bool :=
  match b.selectR with
  | .error e => ([.selectOp], .error e, first_pass)
  | .ok _ =>
    match folder_exists b ARCHIVE_FOLDER with
    | (a1, .error e) => (.selectOp :: a1, .error e, first_pass)
    | (a1, .ok ex) =>
      match (if ex then ([], Except.ok true) else create_folder (some b) ARCHIVE_FOLDER) with
      | (a2, .error e) => (.selectOp :: (a1 ++ a2), .error e, first_pass)
      | (a2, .ok _) =>
        match b.searchR (if first_pass then "ALL" else "UNSEEN") with
        | .error e =>
          (.selectOp :: (a1 ++ a2 ++ [.searchOp (if first_pass then "ALL" else "UNSEEN")]),
           .error e, first_pass)
        | .ok (st, ids) =>
          if st != "OK" then
            (.selectOp :: (a1 ++ a2 ++ [.searchOp (if first_pass then "ALL" else "UNSEEN")]),
             .ok (), false)
          else
            match b.expungeR with
            | .error e =>
              (.selectOp :: (a1 ++ a2 ++ [.searchOp (if first_pass then "ALL" else "UNSEEN")] ++
                (ids.map (process_message b primary)).flatten ++ [.expungeOp]),
               .error e, false)
            | .ok _ =>
              (.selectOp :: (a1 ++ a2 ++ [.searchOp (if first_pass then "ALL" else "UNSEEN")] ++
                (ids.map (process_message b primary)).flatten ++ [.expungeOp]),
               .ok (), false)

/-! ### The polling loop

`run_continuous` loops forever; each tick runs `try_connect()` and, when
connected, one sweep, inside a `try` that catches only
`KeyboardInterrupt` (breaking out of the loop), then sleeps outside that
`try`.  The environment of one tick is: what the `try` block did
(interrupted, failed to connect, or ran a sweep against a given oracle)
and whether the interrupt signal arrived during the sleep.  The model
consumes a finite list of tick environments. -/

/-- What happened inside the tick's `try` block. -/
inductive TryOutcome where
  | interrupt
  | connectFail
  | sweep (b : Behavior)

/-- The environment of one loop iteration. -/
structure TickInput where
  tryOut : TryOutcome
  sleepInterrupt : Bool

/-- How a run of the loop ended. -/
inductive LoopResult where
  | ranOut
  | cleanBreak
  | raisedImap (e : Err)
  | raisedInterrupt
deriving DecidableEq

/-- Embeds `run_continuous`: the loop over a finite list of tick environments.
`KeyboardInterrupt` inside the `try` is caught and breaks the loop
(`cleanBreak`); an `IMAP4.error` escaping the sweep is not caught and
propagates (`raisedImap`); an interrupt during `time.sleep` is outside
the `try` and propagates (`raisedInterrupt`); an exhausted environment
list leaves the loop still running (`ranOut`).  Returns the accumulated
sweep actions, the final `first_pass` flag, and the loop outcome. -/
def run_continuous (primary : String) : Bool → List TickInput → List Action × Bool × LoopResult
  | fp, [] => ([], fp, .ranOut)
  | fp, t :: ts =>
    match t.tryOut with
    | .interrupt => ([], fp, .cleanBreak)
    | .connectFail =>
      if t.sleepInterrupt then ([], fp, .raisedInterrupt)
      else run_continuous primary fp ts
    | .sweep b =>
      match process_inbox b primary fp with
      | (acts, .error e, fp') => (acts, fp', .raisedImap e)
      | (acts, .ok _, fp') =>
        if t.sleepInterrupt then (acts, fp', .raisedInterrupt)
        else
          let r := run_continuous primary fp' ts
          (acts ++ r.1, r.2.1, r.2.2)

/-! ### Specification-side address validity

Used to state what "a syntactically valid address" means, independently
of the matcher: a decomposition `L+ '@' D+ '.' tld{2,}`, recovered
deterministically because `'@' ∉ L` and `'.'` is not a `tld` character
for either variant used below. -/

/-- Does `cs` decompose as `local '@' domain '.' top` with non-empty
`local` over the local class, non-empty `domain` over the domain class
and a top-level label of at least two characters over `tld`?  The split
is at the first `'@'` and the last `'.'`. -/
def validAddrWith (tld : Char → Bool) (cs : List Char) : Bool :=
  match cs.drop (cs.takeWhile (fun c => c != '@')).length with
  | '@' :: w =>
    match w.reverse.drop (w.reverse.takeWhile (fun c => c != '.')).length with
    | '.' :: rd =>
      !(cs.takeWhile (fun c => c != '@')).isEmpty &&
        (cs.takeWhile (fun c => c != '@')).all isLchar &&
        !rd.isEmpty && rd.all isDchar &&
        decide (2 ≤ (w.reverse.takeWhile (fun c => c != '.')).length) &&
        (w.reverse.takeWhile (fun c => c != '.')).all tld
    | _ => false
  | _ => false

/-! ### Concrete connection behaviors

Response oracles used to instantiate the theorems below at concrete
inputs. -/

/-- A message addressed to `user@example.com` only. -/
def okMsg : Message := ⟨some "user@example.com", none, none⟩

/-- A connection on which every call succeeds, every folder listing
reports a match, and every fetch yields `okMsg`. -/
def bAllOk : Behavior where
  selectR := .ok "OK"
  listR := fun _ => .ok ("OK", [some "f"])
  createR := fun _ => .ok "OK"
  searchR := fun _ => .ok ("OK", [])
  fetchR := fun _ => .ok ("OK", .bytes okMsg)
  copyR := fun _ _ => .ok "OK"
  storeR := fun _ => .ok "OK"
  expungeR := .ok "OK"

/-- Like `bAllOk` but every folder listing is empty (no folder exists). -/
def bListEmpty : Behavior := { bAllOk with listR := fun _ => .ok ("OK", []) }

/-- Like `bAllOk` but the `ALL`-scope search reports a `NO` status. -/
def bSearchNoFirst : Behavior :=
  { bAllOk with searchR := fun s => if s = "ALL" then .ok ("NO", []) else .ok ("OK", []) }

/-- Like `bAllOk` but the select reports a `NO` status. -/
def bSelNo : Behavior := { bAllOk with selectR := .ok "NO" }

/-- Like `bAllOk` but every search reports a `NO` status. -/
def bSearchNo : Behavior := { bAllOk with searchR := fun _ => .ok ("NO", []) }

/-- Like `bAllOk` but folder creation raises. -/
def bCreateRaise : Behavior := { bAllOk with createR := fun _ => .error "create failed" }

/-- Like `bAllOk` but the copy reports a `NO` status. -/
def bCopyNo : Behavior := { bAllOk with copyR := fun _ _ => .ok "NO" }

/-- Like `bAllOk` but the search returns three messages and fetching the
second raises. -/
def bFetchFail2 : Behavior :=
  { bAllOk with
    searchR := fun _ => .ok ("OK", ["1", "2", "3"])
    fetchR := fun id => if id = "2" then .error "fetch failed" else .ok ("OK", .bytes okMsg) }

/-! ### List helpers -/

theorem takeWhile_all_append {p : α → Bool} {l : List α} (r : List α) (x : α)
    (hl : ∀ c ∈ l, p c = true) (hx : p x = false) :
    (l ++ x :: r).takeWhile p = l := by
  rw [List.takeWhile_append_of_pos hl, List.takeWhile_cons_of_neg (by simp [hx]),
    List.append_nil]

theorem all_of_take_of_le_takeWhile {p : α → Bool} {l : List α} {n : Nat}
    (h : n ≤ (l.takeWhile p).length) : ∀ c ∈ l.take n, p c = true := by
  intro c hc
  obtain ⟨s, hs⟩ := List.takeWhile_prefix (l := l) p
  have heq : l.take n = (l.takeWhile p).take n := by
    conv_lhs => rw [← hs]
    rw [List.take_append_eq_append_take, Nat.sub_eq_zero_of_le h, List.take_zero,
      List.append_nil]
  rw [heq] at hc
  exact List.mem_takeWhile_imp (List.take_subset _ _ hc)

theorem drop_length_takeWhile (p : α → Bool) (cs : List α) :
    cs.drop (cs.takeWhile p).length = cs.dropWhile p := by
  induction cs with
  | nil => rfl
  | cons c cs ih =>
    by_cases h : p c
    · simp [List.takeWhile_cons, List.dropWhile_cons, h, ih]
    · simp [List.takeWhile_cons, List.dropWhile_cons, h]

/-! ### Soundness of the regex matcher

Every string the matcher returns decomposes as
`L+ '@' D+ '.' T{2,}` — the shape the specification calls a
syntactically valid address, with the source's top-level class. -/

theorem tMatch_sound {u t rest : List Char} (h : tMatch u = some (t, rest)) :
    2 ≤ t.length ∧ t.all isTchar = true := by
  unfold tMatch at h
  cases hf : (List.range' 2 ((u.takeWhile isTchar).length - 1)).reverse.find?
      (fun j => isBoundary (u.get? (j - 1)) (u.get? j)) with
  | none => rw [hf] at h; exact absurd h (by simp)
  | some j =>
    rw [hf] at h
    simp only [Option.some.injEq, Prod.mk.injEq] at h
    obtain ⟨ht, _⟩ := h
    have hj : j ∈ List.range' 2 ((u.takeWhile isTchar).length - 1) :=
      List.mem_reverse.mp (List.mem_of_find?_eq_some hf)
    have hj' := List.mem_range'_1.mp hj
    have hjle : j ≤ (u.takeWhile isTchar).length := by omega
    have hlen : (u.takeWhile isTchar).length ≤ u.length := (List.takeWhile_prefix _).length_le
    constructor
    · rw [← ht, List.length_take]; omega
    · rw [← ht, List.all_eq_true]
      exact all_of_take_of_le_takeWhile hjle

theorem dMatch_sound {v dm rest : List Char} (h : dMatch v = some (dm, rest)) :
    ∃ d0 t, dm = d0 ++ '.' :: t ∧ d0 ≠ [] ∧ d0.all isDchar = true ∧
      2 ≤ t.length ∧ t.all isTchar = true := by
  unfold dMatch at h
  obtain ⟨k, hkmem, hk⟩ := List.exists_of_findSome?_eq_some h
  have hkmem' : k ∈ List.range' 1 (v.takeWhile isDchar).length := List.mem_reverse.mp hkmem
  have hkb := List.mem_range'_1.mp hkmem'
  by_cases hdot : v.get? k = some '.'
  · rw [if_pos hdot] at hk
    cases hts : tMatch (v.drop (k + 1)) with
    | none => rw [hts] at hk; exact absurd hk (by simp)
    | some p =>
      obtain ⟨ts, r⟩ := p
      rw [hts] at hk
      simp only [Option.some.injEq, Prod.mk.injEq] at hk
      obtain ⟨hdm, _⟩ := hk
      obtain ⟨htlen, htall⟩ := tMatch_sound hts
      have hdot' : v[k]? = some '.' := by rw [← List.get?_eq_getElem?]; exact hdot
      have hklt : k < v.length := (List.getElem?_eq_some_iff.mp hdot').1
      refine ⟨v.take k, ts, ?_, ?_, ?_, htlen, htall⟩
      · rw [← hdm, List.take_succ, hdot']
        simp
      · intro hnil
        have hlen0 := congrArg List.length hnil
        rw [List.length_take] at hlen0
        simp only [List.length_nil] at hlen0
        omega
      · rw [List.all_eq_true]
        exact all_of_take_of_le_takeWhile (by omega)
  · rw [if_neg hdot] at hk
    exact absurd hk (by simp)

theorem isLchar_ne_at {c : Char} (h : isLchar c = true) : (c != '@') = true := by
  rcases Decidable.em (c = '@') with rfl | hne
  · exact absurd h (by decide)
  · simp [hne]

theorem isTchar_ne_dot {c : Char} (h : isTchar c = true) : (c != '.') = true := by
  rcases Decidable.em (c = '.') with rfl | hne
  · exact absurd h (by decide)
  · simp [hne]

/-- Unfolding equation for `validAddrWith` on input with an explicit
first `'@'`. -/
theorem validAddrWith_append (tld : Char → Bool) (l w : List Char)
    (hl : ∀ c ∈ l, (c != '@') = true) :
    validAddrWith tld (l ++ '@' :: w) =
      (match w.reverse.drop ((w.reverse.takeWhile (fun c => c != '.')).length) with
       | '.' :: rd =>
         !l.isEmpty && l.all isLchar && !rd.isEmpty && rd.all isDchar &&
           decide (2 ≤ (w.reverse.takeWhile (fun c => c != '.')).length) &&
           (w.reverse.takeWhile (fun c => c != '.')).all tld
       | _ => false) := by
  unfold validAddrWith
  rw [takeWhile_all_append _ _ hl (by simp), List.drop_left]
  rfl

/-- The decomposition produced by the matcher passes the
specification-side validity check (with the source's top-level class). -/
theorem validAddrWith_of_decomp {l d0 t : List Char}
    (hl : l ≠ []) (hlall : ∀ c ∈ l, isLchar c = true)
    (hd : d0 ≠ []) (hdall : d0.all isDchar = true)
    (htlen : 2 ≤ t.length) (htall : t.all isTchar = true) :
    validAddrWith isTchar (l ++ '@' :: (d0 ++ '.' :: t)) = true := by
  have hlne : ∀ c ∈ l, (c != '@') = true := fun c hc => isLchar_ne_at (hlall c hc)
  rw [validAddrWith_append isTchar l (d0 ++ '.' :: t) hlne]
  have hrev : (d0 ++ '.' :: t).reverse = t.reverse ++ '.' :: d0.reverse := by
    rw [List.reverse_append, List.reverse_cons, List.append_assoc]
    rfl
  have htne : ∀ c ∈ t.reverse, (c != '.') = true := by
    intro c hc
    exact isTchar_ne_dot ((List.all_eq_true.mp htall) c (List.mem_reverse.mp hc))
  have htw2 : (t.reverse ++ '.' :: d0.reverse).takeWhile (fun c => c != '.') = t.reverse :=
    takeWhile_all_append _ _ htne (by simp)
  rw [hrev, htw2, List.drop_left]
  show (!l.isEmpty && l.all isLchar && !(d0.reverse).isEmpty && (d0.reverse).all isDchar &&
      decide (2 ≤ t.reverse.length) && (t.reverse).all isTchar) = true
  simp only [Bool.and_eq_true, List.all_reverse, List.length_reverse]
  refine ⟨⟨⟨⟨⟨?_, ?_⟩, ?_⟩, ?_⟩, by simpa using htlen⟩, htall⟩
  · simpa [List.isEmpty_iff] using hl
  · exact List.all_eq_true.mpr hlall
  · simpa [List.isEmpty_iff] using hd
  · exact hdall

theorem addrMatch_sound {prev : Option Char} {s m rest : List Char}
    (h : addrMatch prev s = some (m, rest)) :
    validAddrWith isTchar m = true := by
  unfold addrMatch at h
  by_cases hb : isBoundary prev s.head? = true
  · rw [if_pos hb] at h
    by_cases hemp : (s.takeWhile isLchar).isEmpty = true
    · rw [if_pos hemp] at h; exact absurd h (by simp)
    · rw [if_neg hemp] at h
      split at h
      · rename_i v heq
        cases hdm : dMatch v with
        | none => rw [hdm] at h; exact absurd h (by simp)
        | some p =>
          obtain ⟨dm, r⟩ := p
          rw [hdm] at h
          simp only [Option.some.injEq, Prod.mk.injEq] at h
          obtain ⟨hm, _⟩ := h
          obtain ⟨d0, t, hdm', hd, hdall, htlen, htall⟩ := dMatch_sound hdm
          rw [← hm, hdm']
          exact validAddrWith_of_decomp
            (by simpa [List.isEmpty_iff] using hemp)
            (fun c hc => List.mem_takeWhile_imp hc)
            hd hdall htlen htall
      · exact absurd h (by simp)
  · rw [if_neg hb] at h
    exact absurd h (by simp)

theorem findAddrsAux_sound :
    ∀ (fuel : Nat) (prev : Option Char) (s : List Char) (a : String),
      a ∈ findAddrsAux fuel prev s → validAddrWith isTchar a.data = true := by
  intro fuel
  induction fuel with
  | zero => intro prev s a ha; exact absurd ha (by simp [findAddrsAux])
  | succ n ih =>
    intro prev s a ha
    cases s with
    | nil => exact absurd ha (by simp [findAddrsAux])
    | cons c cs =>
      rw [findAddrsAux] at ha
      cases hm : addrMatch prev (c :: cs) with
      | none =>
        rw [hm] at ha
        exact ih _ _ _ ha
      | some p =>
        obtain ⟨m, rest⟩ := p
        rw [hm] at ha
        rcases List.mem_cons.mp ha with rfl | ha'
        · exact addrMatch_sound hm
        · exact ih _ _ _ ha'

/-- A `String.mk` is the empty string iff its character list is empty. -/
theorem mk_eq_empty_iff (l : List Char) : String.mk l = "" ↔ l = [] := by
  constructor
  · intro h
    have h' := congrArg String.data h
    simpa using h'
  · intro h
    subst h
    rfl

/-- A non-empty string has a non-empty character list. -/
theorem data_ne_nil_of_ne_empty {s : String} (h : s ≠ "") : s.data ≠ [] := by
  intro hd
  apply h
  cases s with
  | mk d =>
    have hd' : d = [] := hd
    subst hd'
    rfl

theorem extract_recipients_sound (msg : Message) :
    ∀ a ∈ extract_recipients msg, validAddrWith isTchar a.data = true := by
  intro a ha
  unfold extract_recipients at ha
  rw [List.mem_flatten] at ha
  obtain ⟨l, hl, hal⟩ := ha
  rw [List.mem_map] at hl
  obtain ⟨h, _, rfl⟩ := hl
  cases h with
  | none => exact absurd hal (by simp)
  | some v =>
    unfold findAddrs at hal
    exact findAddrsAux_sound _ _ _ _ hal

/-! ### Claim C4 -/

/-- C4 (counterexample): the claim's address syntax requires an
alphabetic top-level label, but on the header `To: a@b.c|d` the code
returns `a@b.c|d`, whose top-level label contains `'|'` — so the output
is not "exactly the syntactically valid addresses" in the claim's
sense. -/
theorem extract_recipients_bar_cex :
    extract_recipients ⟨some "a@b.c|d", none, none⟩ = ["a@b.c|d"]
    ∧ validAddrWith Char.isAlpha "a@b.c|d".data = false :=
  ⟨rfl, rfl⟩

/-- C4 (amended): every address `extract_recipients` returns decomposes
as local part `[A-Za-z0-9._%+-]+`, an `'@'`, a domain `[A-Za-z0-9.-]+`,
a dot, and a top-level label of at least two characters each alphabetic
or `'|'`; a message with none of the three headers yields the empty
sequence (and the function is total, so never an error); on the
specification's example headers it returns exactly the three addresses
in header order. -/
theorem extract_recipients_valid (msg : Message) :
    (∀ a ∈ extract_recipients msg, validAddrWith isTchar a.data = true)
    ∧ extract_recipients ⟨none, none, none⟩ = []
    ∧ extract_recipients ⟨some "\"John Doe\" <john@example.com>, \"Jane\" <jane@test.org>",
        some "support@company.com", none⟩ =
        ["john@example.com", "jane@test.org", "support@company.com"] :=
  ⟨extract_recipients_sound msg, rfl, rfl⟩

/-- C4 (witness): the amended theorem applied to a one-recipient
message. -/
theorem extract_recipients_valid_witness :
    validAddrWith isTchar "john@example.com".data = true :=
  (extract_recipients_valid ⟨some "john@example.com", none, none⟩).1
    "john@example.com" (by decide)

/-! ### Claim C5 -/

/-- C5 (counterexample): with local part `" a"` and domain `"b"` (both
non-empty), the claim predicts the pair `(" a", "b")`, but
`parse_email_address` strips the input first and returns `("a", "b")`. -/
theorem parse_email_address_strip_cex :
    parse_email_address " a@b" = ("a", "b") ∧ parse_email_address " a@b" ≠ (" a", "b") :=
  ⟨rfl, by decide⟩

/-- C5 (amended): on input that stripping leaves unchanged, with a
non-empty local part containing no `'@'` and a non-empty domain
containing no newline, `parse_email_address` returns the split at the
first `'@'`; any input whose stripped form does not decompose as a
non-empty `'@'`-free local part, an `'@'`, and a non-empty newline-free
remainder yields the empty pair; and on every input the two fields of
the result are both empty or both non-empty, never a partial pair. -/
theorem parse_email_address_split (a b : String)
    (hstrip : pyStrip ((a ++ "@" ++ b).data) = (a ++ "@" ++ b).data)
    (ha : a ≠ "") (hb : b ≠ "")
    (hat : ∀ c ∈ a.data, c ≠ '@')
    (hnl : ∀ c ∈ b.data, c ≠ '\n') :
    parse_email_address (a ++ "@" ++ b) = (a, b) ∧
    (∀ s : String,
      (¬ ∃ l d : List Char, pyStrip s.data = l ++ '@' :: d ∧ l ≠ [] ∧
        (∀ c ∈ l, c ≠ '@') ∧ d ≠ [] ∧ (∀ c ∈ d, c ≠ '\n')) →
      parse_email_address s = ("", "")) ∧
    ∀ s : String, ((parse_email_address s).1 = "" ↔ (parse_email_address s).2 = "") := by
  refine ⟨?_, ?_, ?_⟩
  · have hdata : (a ++ "@" ++ b).data = a.data ++ '@' :: b.data := by
      rw [String.data_append, String.data_append]
      rw [List.append_assoc]
      rfl
    unfold parse_email_address
    rw [hstrip, hdata]
    have hta : (a.data ++ '@' :: b.data).takeWhile (fun c => c != '@') = a.data :=
      takeWhile_all_append _ _ (fun c hc => by simpa using hat c hc) (by simp)
    rw [hta, List.drop_left]
    show (if !a.data.isEmpty && !b.data.isEmpty && b.data.all (fun c => c != '\n') then
        (String.mk a.data, String.mk b.data) else ("", "")) = (a, b)
    have hcond : (!a.data.isEmpty && !b.data.isEmpty && b.data.all (fun c => c != '\n')) = true := by
      simp only [Bool.and_eq_true, Bool.not_eq_true', List.all_eq_true]
      refine ⟨⟨?_, ?_⟩, ?_⟩
      · simpa [List.isEmpty_iff] using data_ne_nil_of_ne_empty ha
      · simpa [List.isEmpty_iff] using data_ne_nil_of_ne_empty hb
      · intro c hc
        simpa using hnl c hc
    rw [if_pos hcond]
  · intro s hno
    unfold parse_email_address
    split
    · rename_i d heq
      by_cases hcond : (!((pyStrip s.data).takeWhile (fun c => c != '@')).isEmpty &&
          !d.isEmpty && d.all (fun c => c != '\n')) = true
      · exfalso
        apply hno
        rw [drop_length_takeWhile] at heq
        simp only [Bool.and_eq_true, Bool.not_eq_true', List.all_eq_true] at hcond
        obtain ⟨⟨hl, hd⟩, hdnl⟩ := hcond
        refine ⟨(pyStrip s.data).takeWhile (fun c => c != '@'), d, ?_, ?_, ?_, ?_, ?_⟩
        · rw [← heq]
          exact (List.takeWhile_append_dropWhile _ _).symm
        · intro hnil
          rw [hnil] at hl
          simp at hl
        · intro c hc
          have hcc := List.mem_takeWhile_imp hc
          simpa using hcc
        · intro hnil
          rw [hnil] at hd
          simp at hd
        · intro c hc
          simpa using hdnl c hc
      · rw [if_neg hcond]
    · rfl
  · intro s
    unfold parse_email_address
    split
    · split
      · rename_i hcond
        simp only [Bool.and_eq_true, Bool.not_eq_true', List.all_eq_true] at hcond
        obtain ⟨⟨hl, hd⟩, _⟩ := hcond
        simp only [mk_eq_empty_iff]
        refine iff_of_false ?_ ?_
        · intro hnil
          rw [hnil] at hl
          simp at hl
        · intro hnil
          rw [hnil] at hd
          simp at hd
      · simp
    · simp

/-- C5 (witness): the amended theorem applied at `john@example.com`. -/
theorem parse_email_address_split_witness :
    parse_email_address ("john" ++ "@" ++ "example.com") = ("john", "example.com") :=
  (parse_email_address_split "john" "example.com" rfl (by decide) (by decide)
    (by decide) (by decide)).1

/-! ### Claims C2 and C3 -/

/-- C2 (counterexample): the claim's normalisation leaves the rest of
the user part unchanged, predicting `Inbox.JOHN` for user `jOHN`, but
the code's `str.capitalize()` lowercases the rest, yielding
`Inbox.John`. -/
theorem determine_folder_capitalize_cex :
    (determine_folder bListEmpty "example.com" "jOHN" "example.com").2 = .ok "Inbox.John"
    ∧ ("Inbox.John" : String) ≠ "Inbox.JOHN" :=
  ⟨rfl, by decide⟩

/-- C2 (amended): for a non-empty user and domain with the ignore
folder absent, `determine_folder` uppercases the first character of the
user and lowercases the rest, and lowercases the domain with `'.'`
replaced by `'_'`; in particular `determine_folder` maps
(`john`, primary) to `Inbox.John` and, with primary domain
`example.com`, (`john`, `other.com`) to `Inbox.John@other_com`. -/
theorem determine_folder_normalizes (b : Behavior) (primary domain : String)
    (c : Char) (cs : List Char) (hd : domain ≠ "")
    (hex : (folder_exists b
        (ARCHIVE_FOLDER ++ "." ++ pyCapitalize (String.mk (c :: cs)))).2 = .ok false) :
    (determine_folder b primary (String.mk (c :: cs)) domain).2 =
      .ok (if domain = primary
        then "Inbox." ++ String.mk (c.toUpper :: cs.map Char.toLower)
        else "Inbox." ++ String.mk (c.toUpper :: cs.map Char.toLower) ++ "@" ++
          String.mk ((domain.data.map Char.toLower).map (fun x => if x == '.' then '_' else x)))
    ∧ (determine_folder bListEmpty "example.com" "john" "example.com").2 = .ok "Inbox.John"
    ∧ (determine_folder bListEmpty "example.com" "john" "other.com").2 =
        .ok "Inbox.John@other_com" := by
  refine ⟨?_, rfl, rfl⟩
  have hne : String.mk (c :: cs) ≠ "" := by
    intro h
    have h' := congrArg String.data h
    simp at h'
  unfold determine_folder
  rw [if_neg (fun h => h.elim hne hd)]
  rw [show folder_exists b (ARCHIVE_FOLDER ++ "." ++ pyCapitalize (String.mk (c :: cs)))
      = ([.listOp (ARCHIVE_FOLDER ++ "." ++ pyCapitalize (String.mk (c :: cs)))],
         (folder_exists b (ARCHIVE_FOLDER ++ "." ++ pyCapitalize (String.mk (c :: cs)))).2)
    from rfl, hex]
  rfl

/-- C2 (witness): the amended theorem applied at user `john`, domain
`other.com`, primary `example.com`. -/
theorem determine_folder_normalizes_witness :
    (determine_folder bListEmpty "example.com" (String.mk ('j' :: "ohn".data)) "other.com").2 =
      .ok (if ("other.com" : String) = "example.com"
        then "Inbox." ++ String.mk ('j'.toUpper :: "ohn".data.map Char.toLower)
        else "Inbox." ++ String.mk ('j'.toUpper :: "ohn".data.map Char.toLower) ++ "@" ++
          String.mk ((("other.com" : String).data.map Char.toLower).map
            (fun x => if x == '.' then '_' else x))) :=
  (determine_folder_normalizes bListEmpty "example.com" "other.com" 'j' "ohn".data
    (by decide) rfl).1

/-- C3 (confirmed): for non-empty user and domain, when the existence
check reports the ignore folder `archived.<userFolder>` present,
`determine_folder` returns it regardless of the domain — the
ignore-folder check strictly precedes domain routing. -/
theorem determine_folder_ignored (b : Behavior) (primary user domain : String)
    (hu : user ≠ "") (hd : domain ≠ "")
    (hex : (folder_exists b (ARCHIVE_FOLDER ++ "." ++ pyCapitalize user)).2 = .ok true) :
    (determine_folder b primary user domain).2 =
      .ok (ARCHIVE_FOLDER ++ "." ++ pyCapitalize user) := by
  unfold determine_folder
  rw [if_neg (fun h => h.elim hu hd)]
  rw [show folder_exists b (ARCHIVE_FOLDER ++ "." ++ pyCapitalize user)
      = ([.listOp (ARCHIVE_FOLDER ++ "." ++ pyCapitalize user)],
         (folder_exists b (ARCHIVE_FOLDER ++ "." ++ pyCapitalize user)).2)
    from rfl, hex]

/-- C3 (witness): on a connection whose listings all report a match,
user `john` routes to `archived.John` even for a foreign domain. -/
theorem determine_folder_ignored_witness :
    (determine_folder bAllOk "example.com" "john" "other.com").2 =
      .ok (ARCHIVE_FOLDER ++ "." ++ pyCapitalize "john") :=
  determine_folder_ignored bAllOk "example.com" "john" "other.com"
    (by decide) (by decide) rfl

/-! ### Trace lemmas for the gateway operations -/

theorem andThen_pair_ok (acts : List Action) (v : α) (k : α → List Action × Except Err β) :
    andThen (acts, .ok v) k = (acts ++ (k v).1, (k v).2) := rfl

theorem andThen_pair_error (acts : List Action) (e : Err) (k : α → List Action × Except Err β) :
    andThen (acts, .error e) k = (acts, .error e) := rfl

theorem andThen_ok {m : List Action × Except Err α} {k : α → List Action × Except Err β}
    {v : α} (h : m.2 = .ok v) : andThen m k = (m.1 ++ (k v).1, (k v).2) := by
  rcases m with ⟨acts, res⟩
  cases res with
  | error e => exact absurd h (by simp)
  | ok w =>
    have hw : w = v := by
      have h' : Except.ok (ε := Err) w = .ok v := h
      injection h'
    subst hw
    rfl

theorem andThen_error {m : List Action × Except Err α} {k : α → List Action × Except Err β}
    {e : Err} (h : m.2 = .error e) : andThen m k = (m.1, .error e) := by
  rcases m with ⟨acts, res⟩
  cases res with
  | error e' =>
    have he : Except.error (α := α) e' = .error e := h
    injection he with he'
    subst he'
    rfl
  | ok w => exact absurd h (by simp)

theorem mem_andThen {m : List Action × Except Err α} {k : α → List Action × Except Err β}
    {x : Action} (h : x ∈ (andThen m k).1) :
    x ∈ m.1 ∨ ∃ v, m.2 = Except.ok v ∧ x ∈ (k v).1 := by
  rcases m with ⟨acts, res⟩
  cases res with
  | error e => exact Or.inl h
  | ok v =>
    rcases List.mem_append.mp h with h' | h'
    · exact Or.inl h'
    · exact Or.inr ⟨v, rfl, h'⟩

theorem folder_exists_no_expunge (b : Behavior) (n : String) :
    Action.expungeOp ∉ (folder_exists b n).1 := by
  simp [folder_exists]

theorem create_folder_no_expunge (conn : Option Behavior) (n : String) :
    Action.expungeOp ∉ (create_folder conn n).1 := by
  cases conn <;> simp [create_folder]

theorem move_email_no_expunge (b : Behavior) (id t : String) :
    Action.expungeOp ∉ (move_email b id t).1 := by
  intro hx
  unfold move_email at hx
  rcases mem_andThen hx with h | ⟨ex, _, h⟩
  · exact folder_exists_no_expunge b t h
  · rcases mem_andThen h with h' | ⟨_, _, h'⟩
    · cases ex with
      | true =>
        rw [if_pos rfl] at h'
        simp at h'
      | false =>
        rw [if_neg (by simp)] at h'
        exact create_folder_no_expunge _ _ h'
    · rcases mem_andThen h' with h'' | ⟨st, _, h''⟩
      · simp at h''
      · by_cases hst : (st == "OK") = true
        · rw [if_pos hst] at h''
          rcases mem_andThen h'' with h3 | ⟨_, _, h3⟩ <;> simp at h3
        · rw [if_neg hst] at h''
          simp at h''

theorem determine_folder_acts (b : Behavior) (p u d : String) :
    ∀ x ∈ (determine_folder b p u d).1, ∃ n, x = Action.listOp n := by
  intro x hx
  unfold determine_folder at hx
  split at hx
  · simp at hx
  · rw [show folder_exists b (ARCHIVE_FOLDER ++ "." ++ pyCapitalize u)
        = ([.listOp (ARCHIVE_FOLDER ++ "." ++ pyCapitalize u)],
           (folder_exists b (ARCHIVE_FOLDER ++ "." ++ pyCapitalize u)).2) from rfl] at hx
    cases hX : (folder_exists b (ARCHIVE_FOLDER ++ "." ++ pyCapitalize u)).2 with
    | error e =>
      rw [hX] at hx
      simp at hx
      exact ⟨_, hx⟩
    | ok bv =>
      rw [hX] at hx
      cases bv <;>
      · simp at hx
        exact ⟨_, hx⟩

theorem determine_folder_no_expunge (b : Behavior) (p u d : String) :
    Action.expungeOp ∉ (determine_folder b p u d).1 := by
  intro hx
  obtain ⟨n, hn⟩ := determine_folder_acts b p u d _ hx
  exact absurd hn (by simp)

theorem process_message_no_expunge (b : Behavior) (p id : String) :
    Action.expungeOp ∉ process_message b p id := by
  intro hx
  unfold process_message at hx
  rcases mem_andThen hx with h | ⟨sp, _, h⟩
  · simp at h
  · split at h
    · simp at h
    · split at h
      · simp at h
      · split at h
        · exact move_email_no_expunge b id "unmatched" h
        · rcases mem_andThen h with h' | ⟨tg, _, h'⟩
          · exact determine_folder_no_expunge b p _ _ h'
          · exact move_email_no_expunge b id tg h'

theorem process_message_head (b : Behavior) (p id : String) :
    Action.fetchOp id ∈ process_message b p id := by
  unfold process_message
  cases hf : b.fetchR id with
  | error e =>
    rw [andThen_pair_error]
    simp
  | ok sp =>
    rw [andThen_pair_ok]
    simp

theorem flatten_map_segment (f : α → List Action) {x : α} {l : List α} (hx : x ∈ l) :
    f x <:+: (l.map f).flatten := by
  obtain ⟨s, t, rfl⟩ := List.append_of_mem hx
  refine ⟨(s.map f).flatten, (t.map f).flatten, ?_⟩
  simp

theorem infix_cons_append {l M : List Action} (c : Action) (pre suf : List Action)
    (h : l <:+: M) : l <:+: c :: (pre ++ M ++ suf) := by
  obtain ⟨u, v, huv⟩ := h
  refine ⟨c :: (pre ++ u), v ++ suf, ?_⟩
  rw [← huv]
  simp

/-- A successful-search sweep: exact shape of the action trace. -/
theorem process_inbox_acts (b : Behavior) (p : String) (fp : Bool) (ids : List String)
    (st0 lst cst : String) (fl : List (Option String))
    (hsel : b.selectR = .ok st0)
    (hlist : b.listR ARCHIVE_FOLDER = .ok (lst, fl))
    (hcreate : b.createR ARCHIVE_FOLDER = .ok cst)
    (hsearch : b.searchR (if fp then "ALL" else "UNSEEN") = .ok ("OK", ids)) :
    ∃ a2 : List Action, (∀ x ∈ a2, x = Action.createOp ARCHIVE_FOLDER) ∧
      (process_inbox b p fp).1 =
        Action.selectOp :: ([Action.listOp ARCHIVE_FOLDER] ++ a2 ++
          [Action.searchOp (if fp then "ALL" else "UNSEEN")] ++
          (ids.map (process_message b p)).flatten ++ [Action.expungeOp]) ∧
      (process_inbox b p fp).2.2 = false := by
  have hfe : folder_exists b ARCHIVE_FOLDER = ([.listOp ARCHIVE_FOLDER],
      .ok ((lst == "OK") && first_entry_some fl)) := by
    simp only [folder_exists, hlist]
  cases hB : ((lst == "OK") && first_entry_some fl) with
  | true =>
    cases hE : b.expungeR with
    | error e =>
      have hpi : process_inbox b p fp =
          (Action.selectOp :: ([Action.listOp ARCHIVE_FOLDER] ++ [] ++
            [Action.searchOp (if fp then "ALL" else "UNSEEN")] ++
            (ids.map (process_message b p)).flatten ++ [Action.expungeOp]),
           .error e, false) := by
        unfold process_inbox
        simp only [hsel, hfe, hB, hsearch, hE]
        rfl
      exact ⟨[], by simp, by rw [hpi], by rw [hpi]⟩
    | ok s =>
      have hpi : process_inbox b p fp =
          (Action.selectOp :: ([Action.listOp ARCHIVE_FOLDER] ++ [] ++
            [Action.searchOp (if fp then "ALL" else "UNSEEN")] ++
            (ids.map (process_message b p)).flatten ++ [Action.expungeOp]),
           .ok (), false) := by
        unfold process_inbox
        simp only [hsel, hfe, hB, hsearch, hE]
        rfl
      exact ⟨[], by simp, by rw [hpi], by rw [hpi]⟩
  | false =>
    have hcf : create_folder (some b) ARCHIVE_FOLDER =
        ([.createOp ARCHIVE_FOLDER], .ok (cst == "OK")) := by
      simp only [create_folder]
      rw [hcreate]
    cases hE : b.expungeR with
    | error e =>
      have hpi : process_inbox b p fp =
          (Action.selectOp :: ([Action.listOp ARCHIVE_FOLDER] ++ [Action.createOp ARCHIVE_FOLDER] ++
            [Action.searchOp (if fp then "ALL" else "UNSEEN")] ++
            (ids.map (process_message b p)).flatten ++ [Action.expungeOp]),
           .error e, false) := by
        unfold process_inbox
        simp only [hsel, hfe, hB, hcf, hsearch, hE]
        rfl
      exact ⟨[Action.createOp ARCHIVE_FOLDER], by simp, by rw [hpi], by rw [hpi]⟩
    | ok s =>
      have hpi : process_inbox b p fp =
          (Action.selectOp :: ([Action.listOp ARCHIVE_FOLDER] ++ [Action.createOp ARCHIVE_FOLDER] ++
            [Action.searchOp (if fp then "ALL" else "UNSEEN")] ++
            (ids.map (process_message b p)).flatten ++ [Action.expungeOp]),
           .ok (), false) := by
        unfold process_inbox
        simp only [hsel, hfe, hB, hcf, hsearch, hE]
        rfl
      exact ⟨[Action.createOp ARCHIVE_FOLDER], by simp, by rw [hpi], by rw [hpi]⟩

/-- A failed-status-search sweep: the sweep aborts after the search. -/
theorem process_inbox_abort_acts (b : Behavior) (p : String) (fp : Bool) (ids : List String)
    (st0 lst cst sst : String) (fl : List (Option String))
    (hsel : b.selectR = .ok st0)
    (hlist : b.listR ARCHIVE_FOLDER = .ok (lst, fl))
    (hcreate : b.createR ARCHIVE_FOLDER = .ok cst)
    (hsearch : b.searchR (if fp then "ALL" else "UNSEEN") = .ok (sst, ids))
    (hsst : sst ≠ "OK") :
    ∃ a2 : List Action, (∀ x ∈ a2, x = Action.createOp ARCHIVE_FOLDER) ∧
      process_inbox b p fp =
        (Action.selectOp :: ([Action.listOp ARCHIVE_FOLDER] ++ a2 ++
          [Action.searchOp (if fp then "ALL" else "UNSEEN")]), .ok (), false) := by
  have hOK : (sst != "OK") = true := by
    simp [bne_iff_ne]
    exact hsst
  have hfe : folder_exists b ARCHIVE_FOLDER = ([.listOp ARCHIVE_FOLDER],
      .ok ((lst == "OK") && first_entry_some fl)) := by
    simp only [folder_exists, hlist]
  cases hB : ((lst == "OK") && first_entry_some fl) with
  | true =>
    refine ⟨[], by simp, ?_⟩
    unfold process_inbox
    simp only [hsel, hfe, hB, hsearch, hOK]
    rfl
  | false =>
    have hcf : create_folder (some b) ARCHIVE_FOLDER =
        ([.createOp ARCHIVE_FOLDER], .ok (cst == "OK")) := by
      simp only [create_folder]
      rw [hcreate]
    refine ⟨[Action.createOp ARCHIVE_FOLDER], by simp, ?_⟩
    unfold process_inbox
    simp only [hsel, hfe, hB, hcf, hsearch, hOK]
    rfl

/-! ### Claim C6 -/

/-- C6 (confirmed): in a sweep whose search succeeds, expunge is called
exactly once (also for zero messages); each returned message's own
action trace — determined solely by the store's responses for that
message — appears contiguously in the sweep trace, so a failure of one
message never disturbs another; every returned message is fetched; and a
message whose fetch raises, reports a non-`OK` status, or yields a
malformed payload contributes only its fetch attempt and is skipped. -/
theorem process_inbox_resilient (b : Behavior) (p : String) (fp : Bool) (ids : List String)
    (st0 lst cst : String) (fl : List (Option String))
    (hsel : b.selectR = .ok st0)
    (hlist : b.listR ARCHIVE_FOLDER = .ok (lst, fl))
    (hcreate : b.createR ARCHIVE_FOLDER = .ok cst)
    (hsearch : b.searchR (if fp then "ALL" else "UNSEEN") = .ok ("OK", ids)) :
    ((process_inbox b p fp).1.count Action.expungeOp = 1)
    ∧ (∀ id ∈ ids, process_message b p id <:+: (process_inbox b p fp).1)
    ∧ (∀ id ∈ ids, Action.fetchOp id ∈ (process_inbox b p fp).1)
    ∧ (∀ id : String,
        ((∃ e, b.fetchR id = .error e) ∨
         (∃ st pl, b.fetchR id = .ok (st, pl) ∧ ((st == "OK") = false ∨ pl = Payload.notBytes))) →
        process_message b p id = [Action.fetchOp id]) := by
  obtain ⟨a2, ha2, hacts, _⟩ :=
    process_inbox_acts b p fp ids st0 lst cst fl hsel hlist hcreate hsearch
  refine ⟨?_, ?_, ?_, ?_⟩
  · rw [hacts]
    have c1 : List.count Action.expungeOp [Action.listOp ARCHIVE_FOLDER] = 0 :=
      List.count_eq_zero.mpr (by simp)
    have c2 : List.count Action.expungeOp a2 = 0 :=
      List.count_eq_zero.mpr (fun hmem => by
        have h := ha2 _ hmem
        simp at h)
    have c3 : List.count Action.expungeOp
        [Action.searchOp (if fp then "ALL" else "UNSEEN")] = 0 :=
      List.count_eq_zero.mpr (by simp)
    have c4 : List.count Action.expungeOp ((ids.map (process_message b p)).flatten) = 0 :=
      List.count_eq_zero.mpr (fun hmem => by
        rw [List.mem_flatten] at hmem
        obtain ⟨l, hl, hx⟩ := hmem
        rw [List.mem_map] at hl
        obtain ⟨id, _, rfl⟩ := hl
        exact process_message_no_expunge b p id hx)
    simp [List.count_cons, List.count_append, c1, c2, c3, c4]
  · intro id hid
    rw [hacts]
    exact infix_cons_append _ _ _ (flatten_map_segment (process_message b p) hid)
  · intro id hid
    rw [hacts]
    have hinf := infix_cons_append Action.selectOp
      ([Action.listOp ARCHIVE_FOLDER] ++ a2 ++
        [Action.searchOp (if fp then "ALL" else "UNSEEN")])
      [Action.expungeOp] (flatten_map_segment (process_message b p) hid)
    exact hinf.subset (process_message_head b p id)
  · intro id hfail
    unfold process_message
    rcases hfail with ⟨e, hf⟩ | ⟨st, pl, hf, hbad⟩
    · rw [hf, andThen_pair_error]
    · rw [hf, andThen_pair_ok]
      rcases hbad with hst | hpl
      · have hbne : (st != "OK") = true := by
          rw [show (st != "OK") = !(st == "OK") from rfl, hst]
          rfl
        simp [hbne]
      · subst hpl
        by_cases hstOK : (st == "OK") = true
        · have hbne : (st != "OK") = false := by
            rw [show (st != "OK") = !(st == "OK") from rfl, hstOK]
            rfl
          simp [hbne]
        · have hst : (st == "OK") = false := by
            cases h2 : (st == "OK") with
            | false => rfl
            | true => exact absurd h2 hstOK
          have hbne : (st != "OK") = true := by
            rw [show (st != "OK") = !(st == "OK") from rfl, hst]
            rfl
          simp [hbne]

/-- C6 (witness): the resilience theorem applied to a three-message
sweep whose second fetch raises. -/
theorem process_inbox_resilient_witness :
    ((process_inbox bFetchFail2 "example.com" true).1.count Action.expungeOp = 1)
    ∧ process_message bFetchFail2 "example.com" "2" = [Action.fetchOp "2"] := by
  have h := process_inbox_resilient bFetchFail2 "example.com" true ["1", "2", "3"]
    "OK" "OK" "OK" [some "f"] rfl rfl rfl rfl
  exact ⟨h.1, h.2.2.2 "2" (Or.inl ⟨"fetch failed", rfl⟩)⟩

/-! ### Claim C7 -/

/-- C7 (counterexample): the select status is ignored — on a connection
whose select reports `NO`, the sweep still issues the search and still
expunges. -/
theorem select_status_ignored_cex :
    bSelNo.selectR = .ok "NO"
    ∧ Action.searchOp "ALL" ∈ (process_inbox bSelNo "p" true).1
    ∧ Action.expungeOp ∈ (process_inbox bSelNo "p" true).1 :=
  ⟨rfl, by decide, by decide⟩

/-- C7 (amended): the select status result is ignored, so a failed
select status does not abort the sweep — the search is still issued; the
sweep aborts — no fetch, no copy, no expunge, with a normal return —
exactly when the search reports a non-`OK` status, and the polling loop
then continues to the next tick; a select that raises aborts the sweep
with only the select performed, and the error propagates out of the
polling loop. -/
theorem sweep_abort_semantics :
    (∀ (b : Behavior) (p : String) (fp : Bool) (ids : List String)
       (st0 lst cst sst : String) (fl : List (Option String)),
      b.selectR = .ok st0 →
      b.listR ARCHIVE_FOLDER = .ok (lst, fl) →
      b.createR ARCHIVE_FOLDER = .ok cst →
      b.searchR (if fp then "ALL" else "UNSEEN") = .ok (sst, ids) →
      Action.searchOp (if fp then "ALL" else "UNSEEN") ∈ (process_inbox b p fp).1)
    ∧ (∀ (b : Behavior) (p : String) (fp : Bool) (ids : List String)
       (st0 lst cst sst : String) (fl : List (Option String)) (ts : List TickInput),
      b.selectR = .ok st0 →
      b.listR ARCHIVE_FOLDER = .ok (lst, fl) →
      b.createR ARCHIVE_FOLDER = .ok cst →
      b.searchR (if fp then "ALL" else "UNSEEN") = .ok (sst, ids) →
      sst ≠ "OK" →
      (process_inbox b p fp).2.1 = .ok ()
      ∧ (∀ id, Action.fetchOp id ∉ (process_inbox b p fp).1)
      ∧ (∀ id f, Action.copyOp id f ∉ (process_inbox b p fp).1)
      ∧ Action.expungeOp ∉ (process_inbox b p fp).1
      ∧ (run_continuous p fp (⟨.sweep b, false⟩ :: ts)).2.2 = (run_continuous p false ts).2.2)
    ∧ (∀ (b : Behavior) (p : String) (fp : Bool) (e : Err) (ts : List TickInput),
      b.selectR = .error e →
      process_inbox b p fp = ([Action.selectOp], .error e, fp)
      ∧ (run_continuous p fp (⟨.sweep b, false⟩ :: ts)).2.2 = .raisedImap e) := by
  refine ⟨?_, ?_, ?_⟩
  · intro b p fp ids st0 lst cst sst fl hsel hlist hcreate hsearch
    by_cases hsst : sst = "OK"
    · subst hsst
      obtain ⟨a2, _, hacts, _⟩ :=
        process_inbox_acts b p fp ids st0 lst cst fl hsel hlist hcreate hsearch
      rw [hacts]
      simp
    · obtain ⟨a2, _, hpi⟩ :=
        process_inbox_abort_acts b p fp ids st0 lst cst sst fl hsel hlist hcreate hsearch hsst
      rw [hpi]
      simp
  · intro b p fp ids st0 lst cst sst fl ts hsel hlist hcreate hsearch hsst
    obtain ⟨a2, ha2, hpi⟩ :=
      process_inbox_abort_acts b p fp ids st0 lst cst sst fl hsel hlist hcreate hsearch hsst
    refine ⟨by rw [hpi], ?_, ?_, ?_, ?_⟩
    · intro id hmem
      rw [hpi] at hmem
      simp only [List.mem_cons, List.mem_append, List.mem_singleton] at hmem
      rcases hmem with h | ((h | h) | h)
      · exact absurd h (by simp)
      · exact absurd h (by simp)
      · exact absurd (ha2 _ h) (by simp)
      · exact absurd h (by simp)
    · intro id f hmem
      rw [hpi] at hmem
      simp only [List.mem_cons, List.mem_append, List.mem_singleton] at hmem
      rcases hmem with h | ((h | h) | h)
      · exact absurd h (by simp)
      · exact absurd h (by simp)
      · exact absurd (ha2 _ h) (by simp)
      · exact absurd h (by simp)
    · intro hmem
      rw [hpi] at hmem
      simp only [List.mem_cons, List.mem_append, List.mem_singleton] at hmem
      rcases hmem with h | ((h | h) | h)
      · exact absurd h (by simp)
      · exact absurd h (by simp)
      · exact absurd (ha2 _ h) (by simp)
      · exact absurd h (by simp)
    · simp only [run_continuous]
      rw [hpi]
      rfl
  · intro b p fp e ts hsel
    have hpi : process_inbox b p fp = ([Action.selectOp], .error e, fp) := by
      unfold process_inbox
      simp only [hsel]
    refine ⟨hpi, ?_⟩
    simp only [run_continuous]
    rw [hpi]

/-- C7 (witness): the amended theorem applied to a connection whose
search reports `NO`. -/
theorem sweep_abort_semantics_witness :
    (process_inbox bSearchNo "p" true).2.1 = .ok () :=
  (sweep_abort_semantics.2.1 bSearchNo "p" true [] "OK" "OK" "OK" "NO" [some "f"] []
    rfl rfl rfl rfl (by decide)).1

/-! ### Claim C8 -/

/-- C8 (counterexample): a store-side protocol error during the create
is re-raised rather than reported as `false`; and `connect` also
reports an IMAP-level failure as a boolean, so `create_folder` is not
the only gateway operation with boolean failure reporting. -/
theorem create_folder_raises_cex :
    (create_folder (some bCreateRaise) "f").2 = .error "create failed"
    ∧ connect (.error "auth failed") = false :=
  ⟨rfl, rfl⟩

/-- C8 (amended): `create_folder` returns true iff the store reports an
`OK` status; with no connection, or a non-`OK` status, it returns false
without raising; a store-side protocol exception propagates to the
caller; and `connect` likewise reports IMAP-level failure as a boolean
rather than an error. -/
theorem create_folder_semantics :
    (∀ (b : Behavior) (name st : String),
      b.createR name = .ok st → (create_folder (some b) name).2 = .ok (st == "OK"))
    ∧ (∀ name : String, (create_folder none name).2 = .ok false)
    ∧ (∀ (b : Behavior) (name : String) (e : Err),
      b.createR name = .error e → (create_folder (some b) name).2 = .error e)
    ∧ (∀ e : Err, connect (.error e) = false)
    ∧ connect (.ok ()) = true := by
  refine ⟨?_, fun _ => rfl, ?_, fun _ => rfl, rfl⟩
  · intro b name st h
    show (match b.createR name with
      | .error e => Except.error (α := Bool) e
      | .ok s => Except.ok (s == "OK")) = Except.ok (st == "OK")
    rw [h]
  · intro b name e h
    show (match b.createR name with
      | .error e => Except.error (α := Bool) e
      | .ok s => Except.ok (s == "OK")) = Except.error e
    rw [h]

/-- C8 (witness): the amended theorem applied to a succeeding create. -/
theorem create_folder_semantics_witness :
    (create_folder (some bAllOk) "f").2 = .ok (("OK" : String) == "OK") :=
  create_folder_semantics.1 bAllOk "f" "OK" rfl

/-! ### Claim C10 -/

/-- C10 (confirmed): when the exists/create steps return and the copy
reports a non-`OK` status, `move_email` returns false and never issues
the deletion-flag store — the source message's flags are untouched. -/
theorem move_email_copy_fail (b : Behavior) (id target lst cst st : String)
    (fl : List (Option String))
    (hlist : b.listR target = .ok (lst, fl))
    (hcreate : b.createR target = .ok cst)
    (hcopy : b.copyR id target = .ok st)
    (hst : st ≠ "OK") :
    (move_email b id target).2 = .ok false
    ∧ Action.storeOp id ∉ (move_email b id target).1 := by
  have hfe : folder_exists b target
      = ([.listOp target], .ok ((lst == "OK") && first_entry_some fl)) := by
    simp only [folder_exists, hlist]
  have hcf : create_folder (some b) target = ([.createOp target], .ok (cst == "OK")) := by
    simp only [create_folder]
    rw [hcreate]
  have hstf : (st == "OK") = false := beq_eq_false_iff_ne.mpr hst
  have hmain : ∃ a2 : List Action, (∀ x ∈ a2, x = Action.createOp target) ∧
      move_email b id target =
        ([Action.listOp target] ++ (a2 ++ ([Action.copyOp id target] ++ [])), .ok false) := by
    cases hB : ((lst == "OK") && first_entry_some fl) with
    | true =>
      refine ⟨[], by simp, ?_⟩
      unfold move_email
      rw [hfe, andThen_pair_ok, hB]
      rw [if_pos rfl, andThen_pair_ok]
      rw [hcopy, andThen_pair_ok]
      rw [hstf, if_neg (by simp)]
    | false =>
      refine ⟨[Action.createOp target], by simp, ?_⟩
      unfold move_email
      rw [hfe, andThen_pair_ok, hB]
      rw [if_neg (by simp), hcf, andThen_pair_ok]
      rw [hcopy, andThen_pair_ok]
      rw [hstf, if_neg (by simp)]
  obtain ⟨a2, ha2, hmv⟩ := hmain
  refine ⟨by rw [hmv], ?_⟩
  rw [hmv]
  intro hmem
  simp only [List.mem_append, List.mem_singleton, List.not_mem_nil, or_false] at hmem
  rcases hmem with h | (h | h)
  · exact absurd h (by simp)
  · exact absurd (ha2 _ h) (by simp)
  · exact absurd h (by simp)

/-- C10 (witness): the theorem applied to a connection whose copy
reports `NO`. -/
theorem move_email_copy_fail_witness :
    (move_email bCopyNo "1" "f").2 = .ok false :=
  (move_email_copy_fail bCopyNo "1" "f" "OK" "OK" "NO" [some "f"] rfl rfl rfl (by decide)).1

/-! ### Claim C1 -/

/-- C1 (code-bug evidence): on a connection whose `ALL`-scope search
reports a `NO` status and whose `UNSEEN` search succeeds, the first
sweep's search fails yet clears the first-pass flag (the source clears
it before checking the search status), so the second sweep searches
with `UNSEEN` scope — contrary to the specification, under which the
flag flips only after the first successful search. -/
theorem first_pass_cleared_by_failed_search :
    bSearchNoFirst.searchR "ALL" = .ok ("NO", [])
    ∧ (process_inbox bSearchNoFirst "example.com" true).2.1 = .ok ()
    ∧ (process_inbox bSearchNoFirst "example.com" true).2.2 = false
    ∧ Action.searchOp "ALL" ∈ (process_inbox bSearchNoFirst "example.com" true).1
    ∧ Action.searchOp "UNSEEN" ∈
        (process_inbox bSearchNoFirst "example.com"
          (process_inbox bSearchNoFirst "example.com" true).2.2).1 :=
  ⟨rfl, rfl, rfl, by decide, by decide⟩

/-! ### Claim C9 -/

/-- C9 (counterexample): an interrupt arriving during the inter-tick
sleep is outside the loop's `try`: the loop does not exit cleanly but
propagates the interrupt out of `run_continuous`. -/
theorem sleep_interrupt_propagates_cex :
    run_continuous "p" true [⟨TryOutcome.connectFail, true⟩] = ([], true, .raisedInterrupt)
    ∧ LoopResult.raisedInterrupt ≠ LoopResult.cleanBreak :=
  ⟨rfl, by decide⟩

/-- C9 (amended): the loop exits its body cleanly only when some tick's
connect/sweep phase is interrupted, and such an interrupt always exits
the loop cleanly; an interrupt during the inter-tick sleep — whether
the sleep follows a failed connect attempt or a completed sweep, the
only two ways the sleep is reached — instead propagates the interrupt
out of `run_continuous`; and a protocol error escaping a sweep also
propagates, terminating the loop without an interrupt. -/
theorem run_continuous_interrupt_semantics :
    (∀ (p : String) (fp : Bool) (ts : List TickInput),
      (run_continuous p fp ts).2.2 = LoopResult.cleanBreak →
      ∃ t ∈ ts, t.tryOut = TryOutcome.interrupt)
    ∧ (∀ (p : String) (fp : Bool) (ts : List TickInput) (t : TickInput),
      t.tryOut = TryOutcome.interrupt →
      (run_continuous p fp (t :: ts)).2.2 = LoopResult.cleanBreak)
    ∧ (∀ (p : String) (fp : Bool) (ts : List TickInput) (t : TickInput),
      t.tryOut = TryOutcome.connectFail → t.sleepInterrupt = true →
      (run_continuous p fp (t :: ts)).2.2 = LoopResult.raisedInterrupt)
    ∧ (∀ (p : String) (fp : Bool) (ts : List TickInput) (b : Behavior) (t : TickInput),
      t.tryOut = TryOutcome.sweep b → t.sleepInterrupt = true →
      (process_inbox b p fp).2.1 = Except.ok () →
      (run_continuous p fp (t :: ts)).2.2 = LoopResult.raisedInterrupt)
    ∧ (∀ (p : String) (fp : Bool) (ts : List TickInput) (b : Behavior) (e : Err) (t : TickInput),
      t.tryOut = TryOutcome.sweep b → (process_inbox b p fp).2.1 = .error e →
      (run_continuous p fp (t :: ts)).2.2 = LoopResult.raisedImap e) := by
  refine ⟨?_, ?_, ?_, ?_, ?_⟩
  · intro p fp ts
    induction ts generalizing fp with
    | nil =>
      intro h
      simp [run_continuous] at h
    | cons t ts ih =>
      intro h
      simp only [run_continuous] at h
      split at h
      · rename_i heq
        exact ⟨t, List.mem_cons_self t ts, heq⟩
      · by_cases hsi : t.sleepInterrupt = true
        · rw [if_pos hsi] at h
          simp at h
        · rw [if_neg hsi] at h
          obtain ⟨u, hu, hut⟩ := ih fp h
          exact ⟨u, List.mem_cons_of_mem t hu, hut⟩
      · split at h
        · simp at h
        · rename_i acts u fp' heq2
          by_cases hsi : t.sleepInterrupt = true
          · rw [if_pos hsi] at h
            simp at h
          · rw [if_neg hsi] at h
            obtain ⟨u', hu, hut⟩ := ih fp' h
            exact ⟨u', List.mem_cons_of_mem t hu, hut⟩
  · intro p fp ts t h
    simp only [run_continuous, h]
  · intro p fp ts t h hsi
    simp only [run_continuous, h, hsi]
    rfl
  · intro p fp ts b t h hsi hok
    simp only [run_continuous, h]
    rcases hpi : process_inbox b p fp with ⟨acts, res, fp'⟩
    rw [hpi] at hok
    cases res with
    | error e' =>
      have h3 : Except.error (α := Unit) e' = .ok () := hok
      exact absurd h3 (by simp)
    | ok u =>
      rw [hsi]
      rfl
  · intro p fp ts b e t h hpi2
    simp only [run_continuous, h]
    rcases hpi : process_inbox b p fp with ⟨acts, res, fp'⟩
    rw [hpi] at hpi2
    cases res with
    | error e' =>
      have h3 : Except.error (α := Unit) e' = .error e := hpi2
      injection h3 with h4
      subst h4
      rfl
    | ok u =>
      have h3 : Except.ok (ε := Err) u = .error e := hpi2
      exact absurd h3 (by simp)

/-- C9 (witness): the amended theorem applied to a single interrupted
tick. -/
theorem run_continuous_interrupt_semantics_witness :
    (run_continuous "p" true [⟨TryOutcome.interrupt, false⟩]).2.2 = LoopResult.cleanBreak :=
  run_continuous_interrupt_semantics.2.1 "p" true [] ⟨TryOutcome.interrupt, false⟩ rfl

end MTFSS
